import Mathlib

/-!
Verification of the QuadrantServerConnections ingestion-and-retrieval pipeline.

This file is a shallow embedding of the three code units the claims are about:

- the `/query` endpoint of `main.py` (`query_endpoint`),
- `DocumentUploader.upload` of `backend/services/document_uploader.py` (`upload`),
- `QdrantConnector.ensure_collection` of `backend/services/qdrant_connector.py`
  (`ensure_collection`).

External collaborators (the embedding service, the qdrant client, the LLM
client, the filesystem, base64 encoding) are parameters of the embedded
functions, modelled as plain functions:

- `embed : String → Except String (List Rat)` is `embedder.embed`; an
  `Except.error` value is a raised exception carrying the message that
  Python would render with `str(e)`.
- `search : List Rat → Except String (List Hit)` is
  `qdrant.get_client().query_points(...)`; the two accepted result shapes
  (a `QueryResponse` carrying `.points` and a plain list) both amount to a
  list of hits, which is what the success value carries.
- `llm : String → Except String String` is `llm.invoke`.
- `fs : String → Bool` is `os.path.exists`.
- `readF : String → Option String` is opening and reading an image file,
  `none` standing for a raised exception; file bytes are modelled as `String`.
- `b64 : String → String` is `base64.b64encode(..).decode` on those bytes.

Scores are cosine similarities, modelled as rationals; the claims only use
their ordering. Machine-specific float behaviour is out of scope.
-/

/-! ### Character-list string helpers

Python string and path primitives (`str.lower`, `str.strip`, `in`,
`os.path.isabs`, `os.path.basename`, `os.path.join`, `str.startswith`) are
modelled over `List Char` so that every definition evaluates inside the
kernel.
-/

/-- Python `needle in hay` on strings: `needle` occurs as a contiguous
subsequence of `hay`. -/
def seqIn (needle : List Char) : List Char → Bool
  | [] => needle.isEmpty
  | c :: t => needle.isPrefixOf (c :: t) || seqIn needle t

/-- Python `str.lower()` (ASCII case folding, which is all the source
compares). -/
def pyLower (s : String) : String := String.mk (s.data.map Char.toLower)

/-- Python `str.strip()`: drop whitespace from both ends. -/
def pyStrip (s : String) : String :=
  String.mk (((s.data.dropWhile Char.isWhitespace).reverse.dropWhile Char.isWhitespace).reverse)

/-- Python `str.startswith(pre)`. -/
def strStarts (pre s : String) : Bool := pre.data.isPrefixOf s.data

/-- `os.path.isabs` under POSIX: the path begins with a slash. -/
def isAbsPath (p : String) : Bool :=
  match p.data with
  | '/' :: _ => true
  | _ => false

/-- `os.path.basename` under POSIX: the segment after the last slash. -/
def basenameStr (p : String) : String :=
  String.mk (p.data.foldl (fun acc c => if c = '/' then [] else acc ++ [c]) [])

/-- `os.path.join a b` under POSIX for the shapes the source uses. -/
def ospathJoin (a b : String) : String :=
  if isAbsPath b then b
  else if a = "" ∨ a.data.getLast? = some '/' then a ++ b
  else a ++ "/" ++ b

/-! ### Query-side data model (`main.py`) -/

/-- The payload of one Qdrant hit, as `query_endpoint` reads it.
`text` is `payload_data.get("text")` restricted to the string-or-absent
shapes the pipeline stores. `imagePathsJson` is the outcome of
`json.loads(payload_data.get("associated_image_paths", "[]"))`: `some paths`
when decoding succeeds (a missing field decodes the default `"[]"` to
`some []`), `none` when a `json.JSONDecodeError` is raised. -/
structure HitPayload where
  text : Option String
  imagePathsJson : Option (List String)
deriving DecidableEq

/-- One similarity-search hit: `hit.id`, `hit.score`, `hit.payload`.
`payload = none` covers both an absent payload and an empty dict, the two
cases in which Python `if payload_data:` is falsy. -/
structure Hit where
  id : Nat
  score : Rat
  payload : Option HitPayload
deriving DecidableEq

/-- `IMAGE_DIR = "./stored_images"` from the configuration block. -/
def IMAGE_DIR : String := "./stored_images"

/-- Path normalisation applied to each stored image path before the
existence check:
`if not os.path.isabs(img_path) and not img_path.startswith(IMAGE_DIR):
potential_path = os.path.join(IMAGE_DIR, os.path.basename(img_path))`. -/
def resolveImagePath (p : String) : String :=
  if !isAbsPath p && !strStarts IMAGE_DIR p then ospathJoin IMAGE_DIR (basenameStr p)
  else p

/-- `retrieved_image_paths` is a Python `set`; it is modelled as a
duplicate-free list in insertion order, with `set.add` as `insertSet`. -/
def insertSet (s : List String) (x : String) : List String :=
  if x ∈ s then s else s ++ [x]

/-- The inner loop `for img_path in image_paths:` of the hit-processing
step: resolve each path, keep it only when `os.path.exists` holds, and add
it to the set of retrieved image paths. -/
def addImagePaths (fs : String → Bool) (acc : List String) (paths : List String) : List String :=
  paths.foldl
    (fun s p =>
      let pp := resolveImagePath p
      if fs pp then insertSet s pp else s)
    acc

/-- One iteration of `for hit in hits:` in step 3 of `query_endpoint`
(lines 162-192). The accumulator is `(context_texts, retrieved_image_paths)`.
Text is appended whenever the payload is truthy and `payload_data.get("text")`
is truthy; image paths are processed only when `score >= SCORE_THRESHOLD`,
and a JSON decode failure skips the images of this hit. The
`except AttributeError: continue` guard never fires for well-formed hits and
is not modelled. -/
def processHit (fs : String → Bool) (thr : Rat) (acc : List String × List String) (hit : Hit) :
    List String × List String :=
  match hit.payload with
  | none => acc
  | some pd =>
    let ctx :=
      match pd.text with
      | some t => if t = "" then acc.1 else acc.1 ++ [t]
      | none => acc.1
    let imgs :=
      if thr ≤ hit.score then
        match pd.imagePathsJson with
        | some paths => addImagePaths fs acc.2 paths
        | none => acc.2
      else acc.2
    (ctx, imgs)

/-- Step 3 of `query_endpoint` over the whole hit list: returns
`(context_texts, retrieved_image_paths)`. -/
def processHits (fs : String → Bool) (thr : Rat) (hits : List Hit) :
    List String × List String :=
  hits.foldl (processHit fs thr) ([], [])

/-- The default answer of step 4. -/
def NO_INFO_ANSWER : String := "No relevant information found in the documents."

/-- The prefix prepended to the raw context when the LLM call raises. -/
def FALLBACK_HEADER : String :=
  "Error generating answer from context. Using raw context instead.\n\n"

/-- `combined_context = "\n\n---\n\n".join(context_texts)`. -/
def combineContext (ctxs : List String) : String :=
  String.intercalate "\n\n---\n\n" ctxs

/-- The f-string prompt of step 4, with the two interpolations filled in. -/
def buildPrompt (combined q : String) : String :=
  "Based *only* on the following context retrieved from documents, please provide a concise answer to the user\x27s question. Do not use any prior knowledge. If the context does not contain the answer, say so.\n\n            Context:\n            "
    ++ combined
    ++ "\n\n            ---\n            User Question: "
    ++ q
    ++ "\n            ---\n\n            Answer:"

/-- Step 4 of `query_endpoint`: keep the default answer when the context
list is empty; otherwise invoke the LLM on the built prompt, stripping a
successful response and falling back to the header plus raw combined
context when the call raises. -/
def synthesizeAnswer (llm : String → Except String String) (q : String) (ctxs : List String) :
    String :=
  if ctxs.isEmpty then NO_INFO_ANSWER
  else
    match llm (buildPrompt (combineContext ctxs) q) with
    | Except.ok r => pyStrip r
    | Except.error _ => FALLBACK_HEADER ++ combineContext ctxs

/-- Step 5 of `query_endpoint`: for each retrieved path, re-check existence,
read the file and base64-encode it; a read failure is caught and the path
skipped. -/
def loadImages (fs : String → Bool) (readF : String → Option String) (b64 : String → String)
    (paths : List String) : List String :=
  paths.foldl
    (fun acc p =>
      if fs p then
        match readF p with
        | some bytes => acc ++ [b64 bytes]
        | none => acc
      else acc)
    []

/-- The observable outcome of one `/query` request: either the returned
JSON body or a raised `HTTPException` with its status and detail. -/
inductive QueryOutcome where
  | success (answer : String) (images : List String)
  | httpError (status : Nat) (detail : String)
deriving DecidableEq

/-- The `/query` endpoint of `main.py` (lines 112-252). The outer
`except Exception` catches every exception raised inside the main `try`,
including the `HTTPException(503, ...)` raised for a Qdrant failure, since
`HTTPException` subclasses `Exception`; `str` of that exception renders as
`"503: <detail>"`. The guard on `llm` being initialized sits before the
`try` and raises a plain 500. -/
def query_endpoint (llmInit : Bool) (embed : String → Except String (List Rat))
    (search : List Rat → Except String (List Hit)) (llm : String → Except String String)
    (fs : String → Bool) (readF : String → Option String) (b64 : String → String)
    (thr : Rat) (q : String) : QueryOutcome :=
  if llmInit = false then
    QueryOutcome.httpError 500 "LLM (for query augmentation) is not initialized. Check backend logs."
  else
    match embed q with
    | Except.error e => QueryOutcome.httpError 500 ("Query processing failed: " ++ e)
    | Except.ok v =>
      match search v with
      | Except.error e =>
        QueryOutcome.httpError 500
          ("Query processing failed: " ++ ("503: " ++ ("Failed to query Qdrant: " ++ e)))
      | Except.ok hits =>
        let r := processHits fs thr hits
        QueryOutcome.success (synthesizeAnswer llm q r.1) (loadImages fs readF b64 r.2)

/-! ### Ingestion-side data model (`backend/services/document_uploader.py`)

The pdf parser and the chunker are external to the claims: a parsed
document is a list of `Page` values carrying the extracted text and the
image paths returned by `extract_images_from_page`, and the chunker is a
parameter `chunkF : String → List String` giving the `page_content` of each
produced chunk. `embedE : String → Option (List Rat)` is `embedder.embed`
at ingestion time, `none` standing for a raised exception (caught
per-chunk). -/

/-- One parsed page: `page.get_text("text", sort=True)` and the list of
image paths written for that page. -/
structure Page where
  text : String
  images : List String
deriving DecidableEq

/-- The payload stored with one point (the image path list is stored
JSON-serialized; the serialization itself plays no role in the claims, so
the list is carried directly). -/
structure UploadPayload where
  source : String
  page_number : Nat
  chunk_index : Nat
  text : String
  associated_image_paths : List String
deriving DecidableEq

/-- `PointStruct(id=..., vector=..., payload=...)`. -/
structure PointStruct where
  id : Nat
  vector : List Rat
  payload : UploadPayload
deriving DecidableEq

/-- The dictionary returned by `DocumentUploader.upload`, together with the
accumulated points and whether the guarded `client.upsert` call was issued
(`if points:`). -/
structure UploadResult where
  message : String
  chunks_stored : Nat
  images_stored : Nat
  points : List PointStruct
  upsertCalled : Bool
deriving DecidableEq

/-- Python `if not text.strip():` — the page text is empty or
whitespace-only. -/
def isBlank (s : String) : Bool := s.data.all Char.isWhitespace

/-- The inner `for chunk in chunks:` loop of `upload`: embed each chunk,
and on success append a point with id `total_chunks + 1` and payload
`chunk_index = total_chunks`, then increment `total_chunks`; an embedding
exception is caught and the chunk skipped. The state is
`(total_chunks, points)`. -/
def processChunks (embedE : String → Option (List Rat)) (fn : String) (pn : Nat)
    (imgs : List String) : List String → Nat → List PointStruct → Nat × List PointStruct
  | [], tc, pts => (tc, pts)
  | c :: rest, tc, pts =>
    match embedE c with
    | some v =>
      processChunks embedE fn pn imgs rest (tc + 1)
        (pts ++ [{ id := tc + 1, vector := v,
                   payload := { source := fn, page_number := pn, chunk_index := tc,
                                text := c, associated_image_paths := imgs } }])
    | none => processChunks embedE fn pn imgs rest tc pts

/-- The `for page_num, page in enumerate(doc):` loop of `upload`. The state
is `(total_chunks, total_images, points)`; `total_images` grows by the page
image count before the blank-page test, and a blank page contributes no
chunks. -/
def uploadPages (embedE : String → Option (List Rat)) (chunkF : String → List String)
    (fn : String) : Nat → Nat → Nat → List PointStruct → List Page → Nat × Nat × List PointStruct
  | _, tc, ti, pts, [] => (tc, ti, pts)
  | pn, tc, ti, pts, page :: rest =>
    let ti2 := ti + page.images.length
    if isBlank page.text then uploadPages embedE chunkF fn (pn + 1) tc ti2 pts rest
    else
      let r := processChunks embedE fn pn page.images (chunkF page.text) tc pts
      uploadPages embedE chunkF fn (pn + 1) r.1 ti2 r.2 rest

/-- `DocumentUploader.upload` for one parsed document: run the page loop
from counters `0` and an empty point list, issue the upsert only when
points were accumulated, and return the summary dictionary. -/
def upload (embedE : String → Option (List Rat)) (chunkF : String → List String)
    (fn : String) (pages : List Page) : UploadResult :=
  let r := uploadPages embedE chunkF fn 0 0 0 [] pages
  { message := fn ++ " processed"
    chunks_stored := r.1
    images_stored := r.2.1
    points := r.2.2
    upsertCalled := !r.2.2.isEmpty }

/-- The number of chunks of one chunk list whose embedding succeeds. -/
def succCount (embedE : String → Option (List Rat)) (chunks : List String) : Nat :=
  (chunks.filter (fun c => (embedE c).isSome)).length

/-- The number of stored chunks one page contributes: none when blank,
otherwise its successfully embedded chunks. -/
def pageSucc (embedE : String → Option (List Rat)) (chunkF : String → List String)
    (p : Page) : Nat :=
  if isBlank p.text then 0 else succCount embedE (chunkF p.text)

/-- Total stored chunks over a page list. -/
def totalSucc (embedE : String → Option (List Rat)) (chunkF : String → List String)
    (pages : List Page) : Nat :=
  (pages.map (pageSucc embedE chunkF)).sum

/-- Total extracted images over a page list. -/
def totalImages (pages : List Page) : Nat :=
  (pages.map (fun p => p.images.length)).sum

/-! ### Collection creation (`backend/services/qdrant_connector.py`) -/

/-- `QdrantConnector.ensure_collection`: call `client.create_collection`
(the parameter `create`, whose `Except.error` value is the raised exception
rendered by `str(e)`); on failure re-raise unless the lowercased message
contains `"already exists"`. -/
def ensure_collection (create : String → Except String Unit) (name : String) :
    Except String Unit :=
  match create name with
  | Except.ok _ => Except.ok ()
  | Except.error e =>
    if seqIn "already exists".data (pyLower e).data then Except.ok () else Except.error e

/-! ### Lemmas on the hit-processing loop -/

/-- The context texts one hit appends: its payload text when the payload is
truthy and the text field is a non-empty string. -/
def hitTexts (hit : Hit) : List String :=
  match hit.payload with
  | none => []
  | some pd =>
    match pd.text with
    | some t => if t = "" then [] else [t]
    | none => []

/-- The hit admits `q` into the retrieved image path set: its score meets
the threshold, its payload decodes to an image path list containing a path
that resolves to `q`, and `q` exists on disk. -/
def hitContributes (fs : String → Bool) (thr : Rat) (hit : Hit) (q : String) : Prop :=
  thr ≤ hit.score ∧
    ∃ pd paths p, hit.payload = some pd ∧ pd.imagePathsJson = some paths ∧
      p ∈ paths ∧ resolveImagePath p = q ∧ fs q = true

theorem mem_insertSet {s : List String} {x y : String} :
    x ∈ insertSet s y ↔ x ∈ s ∨ x = y := by
  unfold insertSet
  split
  · rename_i h
    constructor
    · exact Or.inl
    · rintro (hx | rfl)
      · exact hx
      · exact h
  · simp

theorem nodup_insertSet {s : List String} {y : String} (h : s.Nodup) :
    (insertSet s y).Nodup := by
  unfold insertSet
  split
  · exact h
  · rename_i hy
    simp [List.nodup_append, h, hy]

theorem addImagePaths_nil (fs : String → Bool) (acc : List String) :
    addImagePaths fs acc [] = acc := rfl

theorem addImagePaths_cons (fs : String → Bool) (acc : List String) (p : String)
    (rest : List String) :
    addImagePaths fs acc (p :: rest) =
      if fs (resolveImagePath p) then
        addImagePaths fs (insertSet acc (resolveImagePath p)) rest
      else addImagePaths fs acc rest := by
  by_cases hfs : fs (resolveImagePath p) <;> simp [addImagePaths, hfs]

theorem mem_addImagePaths {fs : String → Bool} {q : String} :
    ∀ (paths acc : List String),
      q ∈ addImagePaths fs acc paths ↔
        q ∈ acc ∨ ∃ p ∈ paths, resolveImagePath p = q ∧ fs q = true := by
  intro paths
  induction paths with
  | nil => intro acc; simp [addImagePaths_nil]
  | cons p rest ih =>
    intro acc
    rw [addImagePaths_cons]
    by_cases hfs : fs (resolveImagePath p) = true
    · rw [if_pos hfs, ih, mem_insertSet]
      constructor
      · rintro ((hq | rfl) | ⟨p2, hp2, hr, hfq⟩)
        · exact Or.inl hq
        · exact Or.inr ⟨p, List.mem_cons_self p rest, rfl, hfs⟩
        · exact Or.inr ⟨p2, List.mem_cons_of_mem p hp2, hr, hfq⟩
      · rintro (hq | ⟨p2, hp2, hr, hfq⟩)
        · exact Or.inl (Or.inl hq)
        · rcases List.mem_cons.mp hp2 with rfl | hp2
          · exact Or.inl (Or.inr hr.symm)
          · exact Or.inr ⟨p2, hp2, hr, hfq⟩
    · rw [if_neg hfs, ih]
      constructor
      · rintro (hq | ⟨p2, hp2, hr, hfq⟩)
        · exact Or.inl hq
        · exact Or.inr ⟨p2, List.mem_cons_of_mem p hp2, hr, hfq⟩
      · rintro (hq | ⟨p2, hp2, hr, hfq⟩)
        · exact Or.inl hq
        · rcases List.mem_cons.mp hp2 with rfl | hp2
          · subst hr
            exact absurd hfq hfs
          · exact Or.inr ⟨p2, hp2, hr, hfq⟩

theorem nodup_addImagePaths {fs : String → Bool} :
    ∀ (paths acc : List String), acc.Nodup → (addImagePaths fs acc paths).Nodup := by
  intro paths
  induction paths with
  | nil => intro acc h; simpa [addImagePaths_nil] using h
  | cons p rest ih =>
    intro acc h
    rw [addImagePaths_cons]
    by_cases hfs : fs (resolveImagePath p) = true
    · rw [if_pos hfs]
      exact ih _ (nodup_insertSet h)
    · rw [if_neg hfs]
      exact ih _ h

theorem processHit_fst (fs : String → Bool) (thr : Rat) (acc : List String × List String)
    (hit : Hit) : (processHit fs thr acc hit).1 = acc.1 ++ hitTexts hit := by
  cases hpd : hit.payload with
  | none => simp [processHit, hitTexts, hpd]
  | some pd =>
    cases ht : pd.text with
    | none => simp [processHit, hitTexts, hpd, ht]
    | some t =>
      by_cases he : t = "" <;> simp [processHit, hitTexts, hpd, ht, he]

theorem mem_processHit_snd (fs : String → Bool) (thr : Rat) (acc : List String × List String)
    (hit : Hit) (q : String) :
    q ∈ (processHit fs thr acc hit).2 ↔ q ∈ acc.2 ∨ hitContributes fs thr hit q := by
  cases hpd : hit.payload with
  | none => simp [processHit, hitContributes, hpd]
  | some pd =>
    by_cases hs : thr ≤ hit.score
    · cases hpj : pd.imagePathsJson with
      | none => simp [processHit, hitContributes, hpd, hpj, hs]
      | some paths =>
        simp only [processHit, hpd, hpj, if_pos hs]
        rw [mem_addImagePaths]
        simp [hitContributes, hpd, hpj, hs]
    · simp [processHit, hitContributes, hpd, hs]

theorem nodup_processHit_snd (fs : String → Bool) (thr : Rat) (acc : List String × List String)
    (hit : Hit) (h : acc.2.Nodup) : (processHit fs thr acc hit).2.Nodup := by
  cases hpd : hit.payload with
  | none => simpa [processHit, hpd] using h
  | some pd =>
    by_cases hs : thr ≤ hit.score
    · cases hpj : pd.imagePathsJson with
      | none => simpa [processHit, hpd, hpj, hs] using h
      | some paths =>
        simp only [processHit, hpd, hpj, if_pos hs]
        exact nodup_addImagePaths paths acc.2 h
    · simpa [processHit, hpd, hs] using h

theorem foldl_processHit_fst (fs : String → Bool) (thr : Rat) :
    ∀ (hits : List Hit) (acc : List String × List String),
      (hits.foldl (processHit fs thr) acc).1 = acc.1 ++ (hits.map hitTexts).flatten := by
  intro hits
  induction hits with
  | nil => intro acc; simp
  | cons hit rest ih =>
    intro acc
    rw [List.foldl_cons, ih, processHit_fst]
    simp

theorem processHits_fst (fs : String → Bool) (thr : Rat) (hits : List Hit) :
    (processHits fs thr hits).1 = (hits.map hitTexts).flatten := by
  simpa [processHits] using foldl_processHit_fst fs thr hits ([], [])

theorem foldl_processHit_snd_mem (fs : String → Bool) (thr : Rat) (q : String) :
    ∀ (hits : List Hit) (acc : List String × List String),
      q ∈ (hits.foldl (processHit fs thr) acc).2 ↔
        q ∈ acc.2 ∨ ∃ hit ∈ hits, hitContributes fs thr hit q := by
  intro hits
  induction hits with
  | nil => intro acc; simp
  | cons hit rest ih =>
    intro acc
    rw [List.foldl_cons, ih, mem_processHit_snd]
    constructor
    · rintro ((hq | hc) | ⟨h2, hh2, hc2⟩)
      · exact Or.inl hq
      · exact Or.inr ⟨hit, List.mem_cons_self hit rest, hc⟩
      · exact Or.inr ⟨h2, List.mem_cons_of_mem hit hh2, hc2⟩
    · rintro (hq | ⟨h2, hh2, hc2⟩)
      · exact Or.inl (Or.inl hq)
      · rcases List.mem_cons.mp hh2 with rfl | hh2
        · exact Or.inl (Or.inr hc2)
        · exact Or.inr ⟨h2, hh2, hc2⟩

theorem mem_processHits_snd (fs : String → Bool) (thr : Rat) (hits : List Hit) (q : String) :
    q ∈ (processHits fs thr hits).2 ↔ ∃ hit ∈ hits, hitContributes fs thr hit q := by
  simpa [processHits] using foldl_processHit_snd_mem fs thr q hits ([], [])

theorem nodup_processHits_snd (fs : String → Bool) (thr : Rat) (hits : List Hit) :
    ((processHits fs thr hits).2).Nodup := by
  have h : ∀ (l : List Hit) (acc : List String × List String), acc.2.Nodup →
      ((l.foldl (processHit fs thr) acc).2).Nodup := by
    intro l
    induction l with
    | nil => intro acc hacc; simpa using hacc
    | cons hit rest ih =>
      intro acc hacc
      rw [List.foldl_cons]
      exact ih _ (nodup_processHit_snd fs thr acc hit hacc)
  exact h hits ([], []) List.nodup_nil

/-! ### Claim C1 -/

/-- C1: two-tier relevance gating in the query pipeline. For every hit of
the search result whose payload is present and carries a non-empty text,
that text enters the context list regardless of the score. Image paths of a
hit enter the retrieved image path set when its score meets or exceeds the
threshold (boundary-inclusive `thr ≤ score`, matching `score >=
SCORE_THRESHOLD`) and the resolved path exists on disk; conversely every
member of the set comes from some hit whose score meets the threshold, so
below-threshold hits never contribute images. -/
theorem query_gating_two_tier (fs : String → Bool) (thr : Rat) (hits : List Hit) :
    (∀ hit ∈ hits, ∀ pd t, hit.payload = some pd → pd.text = some t → t ≠ "" →
        t ∈ (processHits fs thr hits).1) ∧
    (∀ hit ∈ hits, ∀ pd paths p, hit.payload = some pd → pd.imagePathsJson = some paths →
        p ∈ paths → fs (resolveImagePath p) = true → thr ≤ hit.score →
        resolveImagePath p ∈ (processHits fs thr hits).2) ∧
    (∀ q ∈ (processHits fs thr hits).2, ∃ hit ∈ hits, thr ≤ hit.score ∧
        ∃ pd paths p, hit.payload = some pd ∧ pd.imagePathsJson = some paths ∧ p ∈ paths ∧
          resolveImagePath p = q ∧ fs q = true) := by
  refine ⟨?_, ?_, ?_⟩
  · intro hit hhit pd t hpd ht hne
    rw [processHits_fst]
    rw [List.mem_flatten]
    refine ⟨hitTexts hit, List.mem_map_of_mem hitTexts hhit, ?_⟩
    simp [hitTexts, hpd, ht, hne]
  · intro hit hhit pd paths p hpd hpj hp hfs hs
    rw [mem_processHits_snd]
    exact ⟨hit, hhit, hs, pd, paths, p, hpd, hpj, hp, rfl, hfs⟩
  · intro q hq
    rw [mem_processHits_snd] at hq
    obtain ⟨hit, hhit, hs, pd, paths, p, hpd, hpj, hp, hr, hfq⟩ := hq
    exact ⟨hit, hhit, hs, pd, paths, p, hpd, hpj, hp, hr, hfq⟩

def payloadW1 : HitPayload :=
  { text := some "the text", imagePathsJson := some ["./stored_images/a.png"] }

def hitW1 : Hit := { id := 7, score := 3, payload := some payloadW1 }

def fsW1 : String → Bool := fun s => s == "./stored_images/a.png"

theorem query_gating_two_tier_witness :
    "the text" ∈ (processHits fsW1 3 [hitW1]).1 ∧
    "./stored_images/a.png" ∈ (processHits fsW1 3 [hitW1]).2 := by
  constructor
  · exact (query_gating_two_tier fsW1 3 [hitW1]).1 hitW1 (List.mem_cons_self hitW1 [])
      payloadW1 "the text" rfl rfl (by decide)
  · have h := (query_gating_two_tier fsW1 3 [hitW1]).2.1 hitW1 (List.mem_cons_self hitW1 [])
      payloadW1 ["./stored_images/a.png"] "./stored_images/a.png" rfl rfl
      (List.mem_cons_self _ []) (by decide) (by decide)
    exact h

/-! ### Claim C6 -/

/-- C6: retrieved image paths are deduplicated with set semantics, so a
path shared by several above-threshold hits occurs exactly once in the
retrieved set (the set is duplicate-free); a path missing at query time is
never admitted into the set, its presence among the candidates does not
change the loaded image list, and the query still returns a success
response built from the loaded images. -/
theorem query_image_dedup_missing (fs : String → Bool) (readF : String → Option String)
    (b64 : String → String) (thr : Rat) (hits : List Hit) (p : String) (l1 l2 : List String) :
    ((processHits fs thr hits).2).Nodup ∧
    (fs p = false → p ∉ (processHits fs thr hits).2) ∧
    (fs p = false →
      loadImages fs readF b64 (l1 ++ p :: l2) = loadImages fs readF b64 (l1 ++ l2)) ∧
    (∀ (embed : String → Except String (List Rat))
        (search : List Rat → Except String (List Hit))
        (llm : String → Except String String) (q : String) (v : List Rat),
      embed q = Except.ok v → search v = Except.ok hits →
      query_endpoint true embed search llm fs readF b64 thr q =
        QueryOutcome.success (synthesizeAnswer llm q (processHits fs thr hits).1)
          (loadImages fs readF b64 (processHits fs thr hits).2)) := by
  refine ⟨nodup_processHits_snd fs thr hits, ?_, ?_, ?_⟩
  · intro hfs hmem
    rw [mem_processHits_snd] at hmem
    obtain ⟨hit, _, _, pd, paths, p2, _, _, _, _, hfq⟩ := hmem
    rw [hfs] at hfq
    exact Bool.false_ne_true hfq
  · intro hfs
    simp [loadImages, List.foldl_append, hfs]
  · intro embed search llm q v h1 h2
    simp [query_endpoint, h1, h2]

def payloadW2 : HitPayload :=
  { text := some "shared page text", imagePathsJson := some ["./stored_images/b.png"] }

def hitsW2 : List Hit :=
  [{ id := 1, score := 2, payload := some payloadW2 },
   { id := 2, score := 5, payload := some payloadW2 }]

def fsW2 : String → Bool := fun s => s == "./stored_images/b.png"

theorem query_image_dedup_missing_witness :
    ((processHits fsW2 2 hitsW2).2).Nodup ∧
    "./stored_images/missing.png" ∉ (processHits fsW2 2 hitsW2).2 ∧
    loadImages fsW2 (fun _ => some "bts") (fun s => s)
        (["./stored_images/b.png"] ++ "./stored_images/missing.png" :: []) =
      loadImages fsW2 (fun _ => some "bts") (fun s => s) (["./stored_images/b.png"] ++ []) ∧
    query_endpoint true (fun _ => Except.ok []) (fun _ => Except.ok hitsW2)
        (fun _ => Except.ok "ans") fsW2 (fun _ => some "bts") (fun s => s) 2 "q" =
      QueryOutcome.success
        (synthesizeAnswer (fun _ => Except.ok "ans") "q" (processHits fsW2 2 hitsW2).1)
        (loadImages fsW2 (fun _ => some "bts") (fun s => s) (processHits fsW2 2 hitsW2).2) := by
  have H := query_image_dedup_missing fsW2 (fun _ => some "bts") (fun s => s) 2 hitsW2
    "./stored_images/missing.png" ["./stored_images/b.png"] []
  exact ⟨H.1, H.2.1 (by decide), H.2.2.1 (by decide),
    H.2.2.2 (fun _ => Except.ok []) (fun _ => Except.ok hitsW2) (fun _ => Except.ok "ans")
      "q" [] rfl rfl⟩

/-! ### Claim C2 -/

/-- C2: when the search produced a non-empty context list and the LLM
invocation raises, the query still returns a success response whose answer
is the fallback header followed by the raw concatenated context; in
particular the concatenated context is a suffix of (hence contained in) the
returned answer, and no exception reaches the caller. -/
theorem llm_failure_context_fallback (embed : String → Except String (List Rat))
    (search : List Rat → Except String (List Hit)) (llm : String → Except String String)
    (fs : String → Bool) (readF : String → Option String) (b64 : String → String)
    (thr : Rat) (q : String) (v : List Rat) (hits : List Hit) (msg : String)
    (h1 : embed q = Except.ok v) (h2 : search v = Except.ok hits)
    (hc : (processHits fs thr hits).1 ≠ [])
    (hl : llm (buildPrompt (combineContext (processHits fs thr hits).1) q) = Except.error msg) :
    query_endpoint true embed search llm fs readF b64 thr q =
      QueryOutcome.success (FALLBACK_HEADER ++ combineContext (processHits fs thr hits).1)
        (loadImages fs readF b64 (processHits fs thr hits).2) ∧
    (combineContext (processHits fs thr hits).1).data <:+
      (FALLBACK_HEADER ++ combineContext (processHits fs thr hits).1).data := by
  have hempty : ((processHits fs thr hits).1).isEmpty = false := by
    cases hps : (processHits fs thr hits).1 with
    | nil => exact absurd hps hc
    | cons a l => rfl
  constructor
  · simp [query_endpoint, h1, h2, synthesizeAnswer, hempty, hl]
  · rw [String.data_append]
    exact List.suffix_append _ _

theorem llm_failure_context_fallback_witness :
    query_endpoint true (fun _ => Except.ok []) (fun _ => Except.ok [hitW1])
        (fun _ => Except.error "llm down") fsW1 (fun _ => some "bts") (fun s => s) 3 "q" =
      QueryOutcome.success (FALLBACK_HEADER ++ combineContext (processHits fsW1 3 [hitW1]).1)
        (loadImages fsW1 (fun _ => some "bts") (fun s => s) (processHits fsW1 3 [hitW1]).2) ∧
    (combineContext (processHits fsW1 3 [hitW1]).1).data <:+
      (FALLBACK_HEADER ++ combineContext (processHits fsW1 3 [hitW1]).1).data :=
  llm_failure_context_fallback (fun _ => Except.ok []) (fun _ => Except.ok [hitW1])
    (fun _ => Except.error "llm down") fsW1 (fun _ => some "bts") (fun s => s) 3 "q" [] [hitW1]
    "llm down" rfl rfl (by decide) rfl

/-! ### Claim C3 -/

/-- C3 counterexample: a query whose collected context list is empty but
whose single hit meets the threshold and carries an existing image path
returns the fixed answer together with a NON-empty images list, refuting
the claim that every empty-context query returns an empty images list. -/
def payloadW4 : HitPayload := { text := none, imagePathsJson := some ["./stored_images/c.png"] }

def hitW4 : Hit := { id := 3, score := 3, payload := some payloadW4 }

def fsW4 : String → Bool := fun s => s == "./stored_images/c.png"

theorem empty_context_nonempty_images_cex :
    (processHits fsW4 3 [hitW4]).1 = [] ∧
    query_endpoint true (fun _ => Except.ok []) (fun _ => Except.ok [hitW4])
        (fun _ => Except.ok "unused") fsW4 (fun _ => some "cbytes") (fun s => s) 3 "q" =
      QueryOutcome.success NO_INFO_ANSWER ["cbytes"] ∧
    ("cbytes" :: ([] : List String)) ≠ [] := by decide

/-- C3 (amended): for every query whose collected context list is empty the
LLM is never consulted (the outcome is the same for any two generative
functions), no exception is raised, and the answer is exactly the fixed
no-relevant-information string; the images list is empty whenever the
search returned no hits, though above-threshold hits carrying images
without text can pair a non-empty images list with the fixed answer. -/
theorem empty_context_fixed_answer (embed : String → Except String (List Rat))
    (search : List Rat → Except String (List Hit)) (llm : String → Except String String)
    (fs : String → Bool) (readF : String → Option String) (b64 : String → String)
    (thr : Rat) (q : String) (v : List Rat) (hits : List Hit)
    (h1 : embed q = Except.ok v) (h2 : search v = Except.ok hits)
    (hc : (processHits fs thr hits).1 = []) :
    query_endpoint true embed search llm fs readF b64 thr q =
      QueryOutcome.success NO_INFO_ANSWER (loadImages fs readF b64 (processHits fs thr hits).2) ∧
    (∀ llm2 : String → Except String String,
      query_endpoint true embed search llm2 fs readF b64 thr q =
        query_endpoint true embed search llm fs readF b64 thr q) ∧
    (hits = [] →
      query_endpoint true embed search llm fs readF b64 thr q =
        QueryOutcome.success NO_INFO_ANSWER []) := by
  have hempty : ((processHits fs thr hits).1).isEmpty = true := by rw [hc]; rfl
  refine ⟨?_, ?_, ?_⟩
  · simp [query_endpoint, h1, h2, synthesizeAnswer, hempty]
  · intro llm2
    simp [query_endpoint, h1, h2, synthesizeAnswer, hempty]
  · rintro rfl
    simp [query_endpoint, h1, h2, synthesizeAnswer, processHits, loadImages]

theorem empty_context_fixed_answer_witness :
    query_endpoint true (fun _ => Except.ok []) (fun _ => Except.ok ([] : List Hit))
        (fun _ => Except.ok "unused") (fun _ => false) (fun _ => none) (fun s => s) 3 "q" =
      QueryOutcome.success NO_INFO_ANSWER [] :=
  (empty_context_fixed_answer (fun _ => Except.ok []) (fun _ => Except.ok ([] : List Hit))
    (fun _ => Except.ok "unused") (fun _ => false) (fun _ => none) (fun s => s) 3 "q" [] []
    rfl rfl (by decide)).2.2 rfl

/-! ### Claim C4 -/

/-- C4 counterexample: an embedding failure at query time surfaces as a
plain 500 error with detail built by the catch-all handler, not as a
503-class service-unavailable error. -/
theorem embed_failure_not_503_cex :
    query_endpoint true (fun _ => Except.error "boom") (fun _ => Except.ok ([] : List Hit))
        (fun _ => Except.ok "a") (fun _ => false) (fun _ => none) (fun s => s) 3 "q" =
      QueryOutcome.httpError 500 "Query processing failed: boom" := by decide

/-- C4 (amended): a failure of the embedding step is fatal to the request
but surfaces as a 500 error with detail `Query processing failed: <msg>`;
a vector-store failure also surfaces as a 500 error because the catch-all
handler converts the inner `HTTPException(503, ...)` into `Query processing
failed: 503: Failed to query Qdrant: <msg>`. The two failures are
distinguishable only by their detail text, not by a 503-class status. -/
theorem query_failure_status_500 (embed : String → Except String (List Rat))
    (search : List Rat → Except String (List Hit)) (llm : String → Except String String)
    (fs : String → Bool) (readF : String → Option String) (b64 : String → String)
    (thr : Rat) (q : String) :
    (∀ m, embed q = Except.error m →
      query_endpoint true embed search llm fs readF b64 thr q =
        QueryOutcome.httpError 500 ("Query processing failed: " ++ m)) ∧
    (∀ v m, embed q = Except.ok v → search v = Except.error m →
      query_endpoint true embed search llm fs readF b64 thr q =
        QueryOutcome.httpError 500
          ("Query processing failed: " ++ ("503: " ++ ("Failed to query Qdrant: " ++ m)))) := by
  constructor
  · intro m hm
    simp [query_endpoint, hm]
  · intro v m h1 h2
    simp [query_endpoint, h1, h2]

theorem query_failure_status_500_witness :
    query_endpoint true (fun _ => Except.error "econn") (fun _ => Except.ok ([] : List Hit))
        (fun _ => Except.ok "a") (fun _ => false) (fun _ => none) (fun s => s) 3 "q" =
      QueryOutcome.httpError 500 ("Query processing failed: " ++ "econn") ∧
    query_endpoint true (fun _ => Except.ok []) (fun _ => Except.error "down")
        (fun _ => Except.ok "a") (fun _ => false) (fun _ => none) (fun s => s) 3 "q" =
      QueryOutcome.httpError 500
        ("Query processing failed: " ++ ("503: " ++ ("Failed to query Qdrant: " ++ "down"))) :=
  ⟨(query_failure_status_500 (fun _ => Except.error "econn") (fun _ => Except.ok ([] : List Hit))
      (fun _ => Except.ok "a") (fun _ => false) (fun _ => none) (fun s => s) 3 "q").1 "econn" rfl,
   (query_failure_status_500 (fun _ => Except.ok []) (fun _ => Except.error "down")
      (fun _ => Except.ok "a") (fun _ => false) (fun _ => none) (fun s => s) 3 "q").2 [] "down"
      rfl rfl⟩

/-! ### Claim C10 -/

/-- C10: image gating does not require a hit to contribute context text:
for a search result whose only hit meets the threshold exactly and carries
an existing image path but an empty text field, the response pairs a
non-empty images list with the fixed default answer. -/
def payloadW5 : HitPayload := { text := some "", imagePathsJson := some ["./stored_images/d.png"] }

def hitW5 : Hit := { id := 9, score := 4, payload := some payloadW5 }

def fsW5 : String → Bool := fun s => s == "./stored_images/d.png"

theorem images_without_context :
    (processHits fsW5 4 [hitW5]).1 = [] ∧
    query_endpoint true (fun _ => Except.ok []) (fun _ => Except.ok [hitW5])
        (fun _ => Except.ok "unused") fsW5 (fun _ => some "dbytes") (fun s => s) 4 "q" =
      QueryOutcome.success NO_INFO_ANSWER ["dbytes"] ∧
    (("dbytes" :: []) : List String) ≠ [] := by decide

/-! ### Lemmas on the ingestion loops -/

theorem processChunks_spec (embedE : String → Option (List Rat)) (fn : String) (pn : Nat)
    (imgs : List String) :
    ∀ (chunks : List String) (tc : Nat) (pts : List PointStruct),
      (processChunks embedE fn pn imgs chunks tc pts).1 = tc + succCount embedE chunks ∧
      (processChunks embedE fn pn imgs chunks tc pts).2.map PointStruct.id =
        pts.map PointStruct.id ++ List.range' (tc + 1) (succCount embedE chunks) ∧
      (processChunks embedE fn pn imgs chunks tc pts).2.length =
        pts.length + succCount embedE chunks := by
  intro chunks
  induction chunks with
  | nil =>
    intro tc pts
    simp [processChunks, succCount]
  | cons c rest ih =>
    intro tc pts
    cases he : embedE c with
    | some v =>
      have hsc : succCount embedE (c :: rest) = succCount embedE rest + 1 := by
        simp [succCount, he]
      have h := ih (tc + 1)
        (pts ++ [{ id := tc + 1, vector := v,
                   payload := { source := fn, page_number := pn, chunk_index := tc,
                                text := c, associated_image_paths := imgs } }])
      simp only [processChunks, he]
      refine ⟨?_, ?_, ?_⟩
      · rw [h.1, hsc]
        omega
      · rw [h.2.1, hsc, List.range'_succ]
        simp
      · rw [h.2.2, hsc]
        simp
        omega
    | none =>
      have hsc : succCount embedE (c :: rest) = succCount embedE rest := by
        simp [succCount, he]
      simp only [processChunks, he]
      rw [hsc]
      exact ih tc pts

theorem uploadPages_spec (embedE : String → Option (List Rat)) (chunkF : String → List String)
    (fn : String) :
    ∀ (pages : List Page) (pn tc ti : Nat) (pts : List PointStruct),
      (uploadPages embedE chunkF fn pn tc ti pts pages).1 =
        tc + totalSucc embedE chunkF pages ∧
      (uploadPages embedE chunkF fn pn tc ti pts pages).2.1 = ti + totalImages pages ∧
      (uploadPages embedE chunkF fn pn tc ti pts pages).2.2.map PointStruct.id =
        pts.map PointStruct.id ++ List.range' (tc + 1) (totalSucc embedE chunkF pages) ∧
      (uploadPages embedE chunkF fn pn tc ti pts pages).2.2.length =
        pts.length + totalSucc embedE chunkF pages := by
  intro pages
  induction pages with
  | nil =>
    intro pn tc ti pts
    simp [uploadPages, totalSucc, totalImages]
  | cons page rest ih =>
    intro pn tc ti pts
    by_cases hb : isBlank page.text = true
    · have hts : totalSucc embedE chunkF (page :: rest) = totalSucc embedE chunkF rest := by
        simp [totalSucc, pageSucc, hb]
      have hti : totalImages (page :: rest) = page.images.length + totalImages rest := by
        simp [totalImages]
      simp only [uploadPages, if_pos hb]
      obtain ⟨h1, h2, h3, h4⟩ := ih (pn + 1) tc (ti + page.images.length) pts
      refine ⟨?_, ?_, ?_, ?_⟩
      · rw [h1, hts]
      · rw [h2, hti]
        omega
      · rw [h3, hts]
      · rw [h4, hts]
    · have hts : totalSucc embedE chunkF (page :: rest) =
          succCount embedE (chunkF page.text) + totalSucc embedE chunkF rest := by
        simp [totalSucc, pageSucc, hb]
      have hti : totalImages (page :: rest) = page.images.length + totalImages rest := by
        simp [totalImages]
      obtain ⟨p1, p2, p3⟩ :=
        processChunks_spec embedE fn pn page.images (chunkF page.text) tc pts
      obtain ⟨h1, h2, h3, h4⟩ := ih (pn + 1)
        (processChunks embedE fn pn page.images (chunkF page.text) tc pts).1
        (ti + page.images.length)
        (processChunks embedE fn pn page.images (chunkF page.text) tc pts).2
      simp only [uploadPages, if_neg hb]
      refine ⟨?_, ?_, ?_, ?_⟩
      · rw [h1, p1, hts]
        omega
      · rw [h2, hti]
        omega
      · rw [h3, p2, p1, hts]
        rw [List.append_assoc]
        congr 1
        have harg : tc + succCount embedE (chunkF page.text) + 1 =
            tc + 1 + succCount embedE (chunkF page.text) := by omega
        rw [harg, List.range'_append_1]
        rw [Nat.add_comm (totalSucc embedE chunkF rest) (succCount embedE (chunkF page.text))]
      · rw [h4, p3, hts]
        omega

theorem upload_chunks_stored_eq (embedE : String → Option (List Rat))
    (chunkF : String → List String) (fn : String) (pages : List Page) :
    (upload embedE chunkF fn pages).chunks_stored = totalSucc embedE chunkF pages := by
  have h := (uploadPages_spec embedE chunkF fn pages 0 0 0 []).1
  simpa [upload] using h

theorem upload_points_ids_eq (embedE : String → Option (List Rat))
    (chunkF : String → List String) (fn : String) (pages : List Page) :
    (upload embedE chunkF fn pages).points.map PointStruct.id =
      List.range' 1 (totalSucc embedE chunkF pages) := by
  have h := (uploadPages_spec embedE chunkF fn pages 0 0 0 []).2.2.1
  simpa [upload] using h

theorem upload_points_length_eq (embedE : String → Option (List Rat))
    (chunkF : String → List String) (fn : String) (pages : List Page) :
    (upload embedE chunkF fn pages).points.length = totalSucc embedE chunkF pages := by
  have h := (uploadPages_spec embedE chunkF fn pages 0 0 0 []).2.2.2
  simpa [upload] using h

theorem one_mem_range'_of_ne (n : Nat) (h : n ≠ 0) : 1 ∈ List.range' 1 n := by
  cases n with
  | zero => exact absurd rfl h
  | succ m =>
    rw [List.range'_succ]
    exact List.mem_cons_self _ _

/-! ### Claim C5 -/

/-- C5: a failure while embedding one chunk is caught per-chunk. The upload
always terminates with a summary (with the fixed message), the remaining
chunks are still processed, and `chunks_stored` equals the number of chunks
over non-blank pages whose embedding succeeded (`totalSucc`), which is also
the number of points accumulated for the upsert. -/
theorem upload_counts_successful_chunks (embedE : String → Option (List Rat))
    (chunkF : String → List String) (fn : String) (pages : List Page) :
    (upload embedE chunkF fn pages).chunks_stored = totalSucc embedE chunkF pages ∧
    (upload embedE chunkF fn pages).points.length =
      (upload embedE chunkF fn pages).chunks_stored ∧
    (upload embedE chunkF fn pages).message = fn ++ " processed" := by
  refine ⟨upload_chunks_stored_eq embedE chunkF fn pages, ?_, rfl⟩
  rw [upload_points_length_eq, upload_chunks_stored_eq]

/-! ### Claim C7 -/

/-- C7: a page whose text is empty or whitespace-only contributes zero
chunks (removing it does not change `chunks_stored`), and a document in
which every page is blank stores zero chunks, accumulates no points, and
issues no upsert call, without raising. -/
theorem blank_pages_zero_chunks (embedE : String → Option (List Rat))
    (chunkF : String → List String) (fn : String) (l1 l2 : List Page) (p : Page)
    (hp : isBlank p.text = true) :
    (upload embedE chunkF fn (l1 ++ p :: l2)).chunks_stored =
      (upload embedE chunkF fn (l1 ++ l2)).chunks_stored ∧
    ((∀ q ∈ l1 ++ p :: l2, isBlank q.text = true) →
      (upload embedE chunkF fn (l1 ++ p :: l2)).chunks_stored = 0 ∧
      (upload embedE chunkF fn (l1 ++ p :: l2)).points = [] ∧
      (upload embedE chunkF fn (l1 ++ p :: l2)).upsertCalled = false) := by
  constructor
  · rw [upload_chunks_stored_eq, upload_chunks_stored_eq]
    simp [totalSucc, pageSucc, hp]
  · intro hall
    have hz : totalSucc embedE chunkF (l1 ++ p :: l2) = 0 := by
      apply List.sum_eq_zero
      intro x hx
      rw [List.mem_map] at hx
      obtain ⟨pg, hpg, rfl⟩ := hx
      simp [pageSucc, hall pg hpg]
    have hpts : (upload embedE chunkF fn (l1 ++ p :: l2)).points = [] := by
      have hlen := upload_points_length_eq embedE chunkF fn (l1 ++ p :: l2)
      rw [hz] at hlen
      exact List.length_eq_zero.mp hlen
    refine ⟨?_, hpts, ?_⟩
    · rw [upload_chunks_stored_eq, hz]
    · have : (upload embedE chunkF fn (l1 ++ p :: l2)).upsertCalled =
          !((upload embedE chunkF fn (l1 ++ p :: l2)).points).isEmpty := rfl
      rw [this, hpts]
      rfl

def embW : String → Option (List Rat) := fun _ => some []

def chunkW : String → List String := fun t => [t]

def pBlankW : Page := { text := " \n  ", images := ["i1"] }

theorem blank_pages_zero_chunks_witness :
    isBlank pBlankW.text = true ∧
    (upload embW chunkW "c.pdf" ([] ++ pBlankW :: [])).chunks_stored =
      (upload embW chunkW "c.pdf" ([] ++ [])).chunks_stored ∧
    (upload embW chunkW "c.pdf" ([] ++ pBlankW :: [])).chunks_stored = 0 ∧
    (upload embW chunkW "c.pdf" ([] ++ pBlankW :: [])).points = [] ∧
    (upload embW chunkW "c.pdf" ([] ++ pBlankW :: [])).upsertCalled = false := by
  have H := blank_pages_zero_chunks embW chunkW "c.pdf" [] [] pBlankW (by decide)
  have H2 := H.2 (by
    intro q hq
    rw [List.nil_append, List.mem_singleton] at hq
    subst hq
    decide)
  exact ⟨by decide, H.1, H2.1, H2.2.1, H2.2.2⟩

/-! ### Claim C8 -/

/-- C8: within one upload run the assigned point identifiers are exactly
the consecutive sequence `1, 2, ..., chunks_stored` (hence unique), and
because the counter restarts at `1` on every call, any two uploads that
both store at least one chunk assign at least one colliding identifier. -/
theorem upload_ids_consecutive (embedE : String → Option (List Rat))
    (chunkF : String → List String) (fn : String) (pages : List Page) :
    (upload embedE chunkF fn pages).points.map PointStruct.id =
      List.range' 1 (upload embedE chunkF fn pages).chunks_stored ∧
    ((upload embedE chunkF fn pages).points.map PointStruct.id).Nodup ∧
    (∀ (embedE2 : String → Option (List Rat)) (chunkF2 : String → List String)
        (fn2 : String) (pages2 : List Page),
      (upload embedE chunkF fn pages).chunks_stored ≠ 0 →
      (upload embedE2 chunkF2 fn2 pages2).chunks_stored ≠ 0 →
      ∃ i, i ∈ (upload embedE chunkF fn pages).points.map PointStruct.id ∧
        i ∈ (upload embedE2 chunkF2 fn2 pages2).points.map PointStruct.id) := by
  have hids : (upload embedE chunkF fn pages).points.map PointStruct.id =
      List.range' 1 (upload embedE chunkF fn pages).chunks_stored := by
    rw [upload_points_ids_eq, upload_chunks_stored_eq]
  refine ⟨hids, ?_, ?_⟩
  · rw [hids]
    exact List.nodup_range' 1 _
  · intro embedE2 chunkF2 fn2 pages2 hn1 hn2
    refine ⟨1, ?_, ?_⟩
    · rw [hids]
      exact one_mem_range'_of_ne _ hn1
    · rw [upload_points_ids_eq, ← upload_chunks_stored_eq embedE2 chunkF2 fn2 pages2]
      exact one_mem_range'_of_ne _ hn2

def pagesW : List Page := [{ text := "alpha", images := [] }]

theorem upload_ids_consecutive_witness :
    (upload embW chunkW "a.pdf" pagesW).chunks_stored ≠ 0 ∧
    (upload embW chunkW "b.pdf" pagesW).chunks_stored ≠ 0 ∧
    ∃ i, i ∈ (upload embW chunkW "a.pdf" pagesW).points.map PointStruct.id ∧
      i ∈ (upload embW chunkW "b.pdf" pagesW).points.map PointStruct.id :=
  ⟨by decide, by decide,
   (upload_ids_consecutive embW chunkW "a.pdf" pagesW).2.2 embW chunkW "b.pdf" pagesW
     (by decide) (by decide)⟩

/-! ### Claim C9 -/

/-- C9: `ensure_collection` is idempotent with respect to an existing
collection. A successful create yields success; a create failure whose
lowercased message contains the substring already-exists is swallowed and
the call succeeds; any other create failure is propagated unchanged. -/
theorem ensure_collection_swallows_already_exists (create : String → Except String Unit)
    (name : String) :
    (∀ u, create name = Except.ok u → ensure_collection create name = Except.ok ()) ∧
    (∀ e, create name = Except.error e →
      seqIn "already exists".data (pyLower e).data = true →
      ensure_collection create name = Except.ok ()) ∧
    (∀ e, create name = Except.error e →
      seqIn "already exists".data (pyLower e).data = false →
      ensure_collection create name = Except.error e) := by
  refine ⟨?_, ?_, ?_⟩
  · intro u h
    simp [ensure_collection, h]
  · intro e h hse
    simp [ensure_collection, h, hse]
  · intro e h hse
    simp [ensure_collection, h, hse]

theorem ensure_collection_swallows_already_exists_witness :
    ensure_collection (fun _ => Except.error "Collection my_docs Already Exists") "my_docs" =
      Except.ok () ∧
    ensure_collection (fun _ => Except.error "connection refused") "my_docs" =
      Except.error "connection refused" ∧
    ensure_collection (fun _ => Except.ok ()) "my_docs" = Except.ok () :=
  ⟨(ensure_collection_swallows_already_exists
      (fun _ => Except.error "Collection my_docs Already Exists") "my_docs").2.1
      "Collection my_docs Already Exists" rfl (by decide),
   (ensure_collection_swallows_already_exists
      (fun _ => Except.error "connection refused") "my_docs").2.2
      "connection refused" rfl (by decide),
   (ensure_collection_swallows_already_exists
      (fun _ => Except.ok ()) "my_docs").1 () rfl⟩
